import Mathlib

/-!
# Blogging API: the request handlers of `routes/blogs.js`

A shallow embedding of the router in `src/blogging-api/routes/blogs.js`:
the `authenticate` middleware, `calculateReadingTime`, and the handlers for
`GET /`, `GET /:id`, `POST /`, `PATCH /:id/state`, `PATCH /:id` and `DELETE /:id`.

The document store (Mongoose), the token library (`jsonwebtoken`) and the
regular-expression engine are collaborators outside the repository; they enter
the model through the record `Env`.  Every `try { ... } catch` of the source is
kept: a store call that throws produces the `500` response of the `catch` block.
-/

namespace BloggingApi

/-! ## Strings -/

/-- `String.prototype.split(sep)` for a one-character separator, on the list of
characters of the string: the pieces between consecutive occurrences of `sep`.
The empty string gives one (empty) piece, as in JavaScript. -/
def split (sep : Char) : List Char → List (List Char)
  | [] => [[]]
  | c :: cs =>
    if c = sep then [] :: split sep cs
    else
      match split sep cs with
      | [] => [[c]]
      | t :: ts => (c :: t) :: ts

/-- `String.prototype.replace(pat, rep)` for a string pattern: only the first
occurrence of `pat` is replaced. -/
def replaceFirst (pat rep : List Char) : List Char → List Char
  | [] => if pat.isEmpty then rep else []
  | c :: cs =>
    if pat.isPrefixOf (c :: cs) then rep ++ List.drop pat.length (c :: cs)
    else c :: replaceFirst pat rep cs

/-- JavaScript truthiness of a value that is either `undefined` or a string:
`undefined` and the empty string are falsy. -/
def truthy : Option String → Bool
  | none => false
  | some s => s != ""

/-! ## Numbers -/

/-- The double nearest to a natural number, ties going to the even significand:
a double carries 53 significant bits, so a number of more bits is rounded to a
multiple of the power of two that its excess bits span. -/
def roundNat (a : Nat) : Nat :=
  let q : Nat := 2 ^ (a.size - 53)
  let lo : Nat := a / q
  let r : Nat := a % q
  let mant : Nat :=
    if 2 * r < q then lo
    else if q < 2 * r then lo + 1
    else if lo % 2 = 0 then lo else lo + 1
  mant * q

/-- The double nearest to an integer.  A stored counter is a double, and so is
the result of an addition on it; `x + 1` in the source is `roundDouble (x + 1)`
here.  (Adding 1 to a double never overflows to `Infinity`.) -/
def roundDouble (m : Int) : Int := m.sign * (roundNat m.natAbs : Int)

/-! ## Reading time (`calculateReadingTime`, lines 22-28) -/

/-- The function `calculateReadingTime`:
`words = text.split(' ').length`, `time = Math.ceil(words / 200)`.
The quotient is taken exactly, in `ℚ`; the double-precision quotient of the
source has the same ceiling for every word count a string can reach. -/
def calculateReadingTime (text : String) : Nat :=
  let wordsPerMinute : Nat := 200
  let words : Nat := (split ' ' text.data).length
  let time : Nat := Nat.ceil ((words : ℚ) / (wordsPerMinute : ℚ))
  time

/-! ## Data model -/

/-- Modelled from the spec: the Mongoose model `models/Blog.js` is not part of
the sources.  A post has an identifier, title, description, tags, body, state,
author (the identifier of a user), read count, reading-time estimate and
creation timestamp.  A path that a request may leave `undefined` is an `Option`;
`author` is the string form of the stored reference (`blog.author.toString()`).
The counters are JavaScript numbers holding integers: doubles, on which the
arithmetic of the handlers is rounded by `roundDouble`. -/
structure Blog where
  _id : String
  title : Option String
  description : Option String
  tags : Option (List String)
  body : String
  state : Option String
  author : Option String
  read_count : Int
  reading_time : Int
  timestamp : Nat
  deriving DecidableEq, Repr

/-- Modelled from the spec: the Mongoose model `models/User.js` is not part of
the sources.  A user has an identifier, first name, last name, email, password
hash and creation timestamp. -/
structure User where
  _id : String
  first_name : String
  last_name : String
  email : String
  password : String
  timestamp : Nat
  deriving DecidableEq, Repr

/-- The projection `'first_name last_name email'` that `populate` selects. -/
structure AuthorSummary where
  _id : String
  first_name : String
  last_name : String
  email : String
  deriving DecidableEq, Repr

/-- A post whose `author` path has been populated (`null` when the reference
resolves to no user). -/
structure PopulatedBlog where
  doc : Blog
  author : Option AuthorSummary
  deriving DecidableEq, Repr

/-- The collection of posts, in insertion order. -/
abbrev Store := List Blog

/-- A `RegExp` object: `new RegExp(source, flags)`. -/
structure RegExp where
  source : String
  flags : String
  deriving DecidableEq, Repr

/-- One alternative of the `$or` array built by the listing handler. -/
inductive Cond where
  | title (r : RegExp)
  | tags (r : RegExp)
  | author (r : RegExp)
  deriving DecidableEq, Repr

/-- The filter object `query` of the listing handler: the `state` key and the
optional `$or` key. -/
structure Query where
  state : String
  or : Option (List Cond)
  deriving DecidableEq, Repr

/-- The calls the handlers make on the store. -/
inductive StoreOp where
  | findById (id : String)
  | find (q : Query) (limit : Nat) (skip : Int) (sort : Option String)
  | countDocuments (q : Query)
  | save (b : Blog)

/-- The payload `jwt.verify` returns; `id` is `undefined` when the token
carries none. -/
structure Payload where
  id : Option String
  deriving DecidableEq, Repr

/-- The collaborators outside the repository.
* `verify`: `jwt.verify(token, process.env.JWT_SECRET)`, `none` when it throws;
* `fault`: the message of the exception a store call throws, if it throws;
* `test`: whether a `RegExp` matches somewhere in a string;
* `sort`: the store's ordering for a caller-supplied sort specification;
* `users`: the user collection that `populate` reads;
* `defaultState`: the schema default of `state`;
* `newId`, `now`: the identifier and timestamp given to a new document. -/
structure Env where
  verify : String → Option Payload
  fault : StoreOp → Option String
  test : RegExp → String → Bool
  sort : Option String → List Blog → List Blog
  users : List User
  defaultState : Option String
  newId : String
  now : Nat

/-- The query string `req.query` of the listing handler.  `page` and `limit`
stand for the numbers their strings denote (the source only uses them
through `*`, `-` and `/`). -/
structure ListParams where
  page : Option Nat
  limit : Option Nat
  search : Option String
  sort : Option String
  filter : Option String
  deriving DecidableEq, Repr

/-- The JSON object `req.body`: each path of a post is present or absent. -/
structure Fields where
  title : Option String
  description : Option String
  tags : Option (List String)
  body : Option String
  state : Option String
  author : Option String
  read_count : Option Int
  reading_time : Option Int
  timestamp : Option Nat
  deriving DecidableEq, Repr

/-- The parts of an Express request the router reads or writes:
`req.header('Authorization')`, `req.userId`, `req.params.id`, `req.query`
and `req.body`. -/
structure Request where
  authorization : Option String
  userId : Option String
  id : String
  query : ListParams
  body : Fields
  deriving DecidableEq, Repr

/-- The JSON document sent by `res.json`. -/
inductive Body where
  | message (m : String)
  | error (e : String)
  | blog (b : Blog)
  | populated (b : PopulatedBlog)
  | listing (blogs : List PopulatedBlog) (totalPages : Option Nat) (currentPage : Nat)
  deriving DecidableEq, Repr

/-- What `res.status(status).json(body)` sends. -/
structure Response where
  status : Nat
  body : Body
  deriving DecidableEq, Repr

/-- What a middleware does with a request: it throws, it sends a response and
stops, or it calls `next()` with the (possibly updated) request. -/
inductive Middleware where
  | threw (e : String)
  | responded (res : Response)
  | next (req : Request)
  deriving DecidableEq, Repr

/-! ## The store -/

/-- Whether a post satisfies one alternative of `$or`.  A regular expression
on an array path matches when it matches some element. -/
def Cond.holds (env : Env) (b : Blog) : Cond → Bool
  | .title r => match b.title with
    | some t => env.test r t
    | none => false
  | .tags r => (b.tags.getD []).any (env.test r)
  | .author r => match b.author with
    | some a => env.test r a
    | none => false

/-- Whether a post satisfies the filter object: the `state` equality and, when
`$or` is present, at least one of its alternatives. -/
def Query.holds (env : Env) (q : Query) (b : Blog) : Bool :=
  (b.state == some q.state) &&
    (match q.or with
     | none => true
     | some cs => cs.any (Cond.holds env b))

/-- `Query.limit(n)`: at most `n` documents, and all of them when `n = 0`. -/
def limitDocs (n : Nat) (docs : List Blog) : List Blog :=
  if n = 0 then docs else docs.take n

/-- `Blog.findById(id)`: the stored post with this identifier, `null` when
there is none. -/
def Env.findById (env : Env) (store : Store) (id : String) : Except String (Option Blog) :=
  match env.fault (.findById id) with
  | some e => .error e
  | none => .ok (store.find? (fun b => b._id == id))

/-- `Blog.find(query).limit(limit).skip(skip).sort(sort).exec()`: the store
sorts the matching posts, skips, then limits.  A negative skip is rejected. -/
def Env.find (env : Env) (store : Store) (q : Query) (limit : Nat) (skip : Int)
    (sort : Option String) : Except String (List Blog) :=
  match env.fault (.find q limit skip sort) with
  | some e => .error e
  | none =>
    if skip < 0 then .error "Skip value must be non-negative"
    else .ok (limitDocs limit ((env.sort sort (store.filter (q.holds env))).drop skip.toNat))

/-- `Blog.countDocuments(query)`. -/
def Env.countDocuments (env : Env) (store : Store) (q : Query) : Except String Nat :=
  match env.fault (.countDocuments q) with
  | some e => .error e
  | none => .ok (store.filter (q.holds env)).length

/-- The stored document with the identifier of `b` is replaced by `b`. -/
def replaceDoc (b : Blog) : Store → Store
  | [] => []
  | d :: ds => if d._id == b._id then b :: ds else d :: replaceDoc b ds

/-- `blog.save()` on a document loaded from the store. -/
def Env.save (env : Env) (store : Store) (b : Blog) : Except String Store :=
  match env.fault (.save b) with
  | some e => .error e
  | none => .ok (replaceDoc b store)

/-- `blog.save()` on a new document: it is inserted, unless its identifier is
already taken. -/
def Env.insert (env : Env) (store : Store) (b : Blog) : Except String Store :=
  match env.fault (.save b) with
  | some e => .error e
  | none =>
    if store.any (fun d => d._id == b._id) then .error "E11000 duplicate key error"
    else .ok (store ++ [b])

/-- `.populate('author', 'first_name last_name email')`. -/
def populate (env : Env) (b : Blog) : PopulatedBlog :=
  { doc := b
    author := match b.author with
      | none => none
      | some a =>
        (env.users.find? (fun u => u._id == a)).map
          (fun u => { _id := u._id, first_name := u.first_name,
                      last_name := u.last_name, email := u.email }) }

/-! ## Middleware (`authenticate`, lines 7-20) -/

/-- The middleware `authenticate`.  Without an `Authorization` header,
`req.header(...)` is `undefined` and `.replace` throws outside the `try`. -/
def authenticate (env : Env) (req : Request) : Middleware :=
  match req.authorization with
  | none => .threw "Cannot read properties of undefined (reading 'replace')"
  | some header =>
    let token : String := ⟨replaceFirst "Bearer ".data [] header.data⟩
    if token = "" then
      .responded ⟨401, .message "No token provided"⟩
    else
      match env.verify token with
      | some decoded => .next { req with userId := decoded.id }
      | none => .responded ⟨401, .message "Invalid token"⟩

/-! ## Handlers -/

/-- The filter object built at lines 34-44 of the listing handler. -/
def buildQuery (filter search : Option String) : Query :=
  let query : Query := { state := "published", or := none }
  let query : Query :=
    match filter with
    | some f => if truthy (some f) then { query with state := f } else query
    | none => query
  let query : Query :=
    match search with
    | some s =>
      if truthy (some s) then
        { query with or := some [.title ⟨s, "i"⟩, .tags ⟨s, "i"⟩, .author ⟨s, "i"⟩] }
      else query
    | none => query
  query

/-- `Math.ceil(count / limit)` as it appears in the JSON response: division by
zero gives `Infinity` or `NaN`, which `JSON.stringify` writes as `null`. -/
def totalPages (count limit : Nat) : Option Nat :=
  if limit = 0 then none else some (Nat.ceil ((count : ℚ) / (limit : ℚ)))

/-- `router.get('/')`, lines 31-60. -/
def getBlogs (env : Env) (req : Request) (store : Store) : Response × Store :=
  let page : Nat := req.query.page.getD 1
  let limit : Nat := req.query.limit.getD 20
  let query := buildQuery req.query.filter req.query.search
  match env.find store query (limit * 1) (((page : Int) - 1) * (limit : Int)) req.query.sort with
  | .error e => (⟨500, .error e⟩, store)
  | .ok blogs =>
    match env.countDocuments store query with
    | .error e => (⟨500, .error e⟩, store)
    | .ok count =>
      (⟨200, .listing (blogs.map (populate env)) (totalPages count limit) page⟩, store)

/-- `router.get('/:id')`, lines 63-75. -/
def getBlog (env : Env) (req : Request) (store : Store) : Response × Store :=
  match env.findById store req.id with
  | .error e => (⟨500, .error e⟩, store)
  | .ok none => (⟨404, .message "Blog not found"⟩, store)
  | .ok (some blog) =>
    if blog.state ≠ some "published" then
      (⟨404, .message "Blog not found"⟩, store)
    else
      let blog : Blog := { blog with read_count := roundDouble (blog.read_count + 1) }
      match env.save store blog with
      | .error e => (⟨500, .error e⟩, store)
      | .ok store' => (⟨200, .populated (populate env blog)⟩, store')

/-- Modelled from the spec: `new Blog(...)` of the absent `models/Blog.js`.
The new document takes the supplied paths, a fresh identifier and timestamp,
the schema default of `state`, and a read count that starts at 0. -/
def Blog.new (env : Env) (title description : Option String) (author : Option String)
    (tags : Option (List String)) (body : String) (reading_time : Int) : Blog :=
  { _id := env.newId, title := title, description := description, tags := tags,
    body := body, state := env.defaultState, author := author, read_count := 0,
    reading_time := reading_time, timestamp := env.now }

/-- `router.post('/')` after `authenticate`, lines 78-95.  Without a `body`
path, `calculateReadingTime(undefined)` throws inside the `try`. -/
def createBlog (env : Env) (req : Request) (store : Store) : Response × Store :=
  match req.body.body with
  | none => (⟨500, .error "Cannot read properties of undefined (reading 'split')"⟩, store)
  | some body =>
    let reading_time := calculateReadingTime body
    let blog := Blog.new env req.body.title req.body.description req.userId req.body.tags
      body reading_time
    match env.insert store blog with
    | .error e => (⟨500, .error e⟩, store)
    | .ok store' => (⟨201, .blog blog⟩, store')

/-- `router.patch('/:id/state')` after `authenticate`, lines 98-110. -/
def updateState (env : Env) (req : Request) (store : Store) : Response × Store :=
  match env.findById store req.id with
  | .error e => (⟨500, .error e⟩, store)
  | .ok none =>
    (⟨403, .message "You do not have permission to update this blog"⟩, store)
  | .ok (some blog) =>
    match blog.author with
    | none => (⟨500, .error "Cannot read properties of undefined (reading 'toString')"⟩, store)
    | some author =>
      if some author ≠ req.userId then
        (⟨403, .message "You do not have permission to update this blog"⟩, store)
      else
        let blog : Blog := { blog with state := req.body.state }
        match env.save store blog with
        | .error e => (⟨500, .error e⟩, store)
        | .ok store' => (⟨200, .blog blog⟩, store')

/-- `Object.assign(blog, req.body)`: every path present in the request body
overwrites the path of the post. -/
def assign (blog : Blog) (f : Fields) : Blog :=
  { blog with
    title := match f.title with
      | some v => some v
      | none => blog.title
    description := match f.description with
      | some v => some v
      | none => blog.description
    tags := match f.tags with
      | some v => some v
      | none => blog.tags
    body := f.body.getD blog.body
    state := match f.state with
      | some v => some v
      | none => blog.state
    author := match f.author with
      | some v => some v
      | none => blog.author
    read_count := f.read_count.getD blog.read_count
    reading_time := f.reading_time.getD blog.reading_time
    timestamp := f.timestamp.getD blog.timestamp }

/-- `router.patch('/:id')` after `authenticate`, lines 113-126. -/
def editBlog (env : Env) (req : Request) (store : Store) : Response × Store :=
  match env.findById store req.id with
  | .error e => (⟨500, .error e⟩, store)
  | .ok none =>
    (⟨403, .message "You do not have permission to edit this blog"⟩, store)
  | .ok (some blog) =>
    match blog.author with
    | none => (⟨500, .error "Cannot read properties of undefined (reading 'toString')"⟩, store)
    | some author =>
      if some author ≠ req.userId then
        (⟨403, .message "You do not have permission to edit this blog"⟩, store)
      else
        let blog : Blog := assign blog req.body
        let blog : Blog := { blog with reading_time := calculateReadingTime blog.body }
        match env.save store blog with
        | .error e => (⟨500, .error e⟩, store)
        | .ok store' => (⟨200, .blog blog⟩, store')

/-- The part of the delete handler that the sources do not contain: the file
ends after the `403` response at line 133.  `removed` is what the handler does
with a post its requester owns, `thrown` what its `catch` block does. -/
structure DeleteRest where
  removed : Env → Request → Blog → Store → Response × Store
  thrown : String → Store → Response × Store

/-- `router.delete('/:id')` after `authenticate`, lines 129-133, continued by
`rest`. -/
def deleteBlog (rest : DeleteRest) (env : Env) (req : Request) (store : Store) :
    Response × Store :=
  match env.findById store req.id with
  | .error e => rest.thrown e store
  | .ok none =>
    (⟨403, .message "You do not have permission to delete this blog"⟩, store)
  | .ok (some blog) =>
    match blog.author with
    | none => rest.thrown "Cannot read properties of undefined (reading 'toString')" store
    | some author =>
      if some author ≠ req.userId then
        (⟨403, .message "You do not have permission to delete this blog"⟩, store)
      else rest.removed env req blog store

/-! ## The router -/

/-- The routes registered on the router. -/
inductive Route where
  | list
  | fetch
  | create
  | state
  | edit
  | delete
  deriving DecidableEq, Repr

/-- The routes registered with the `authenticate` middleware. -/
def Route.guarded : Route → Bool
  | .list => false
  | .fetch => false
  | _ => true

/-- The handler registered for a route. -/
def Route.handler (rest : DeleteRest) : Route → Env → Request → Store → Response × Store
  | .list => getBlogs
  | .fetch => getBlog
  | .create => createBlog
  | .state => updateState
  | .edit => editBlog
  | .delete => deleteBlog rest

/-- What serving a request ends in: an exception nobody catches, or a response
together with the store it leaves. -/
inductive Outcome where
  | uncaught (e : String)
  | sent (res : Response) (store : Store)
  deriving DecidableEq, Repr

/-- A handler registered behind `authenticate`, as in
`router.post('/', authenticate, handler)`: the handler runs only when the
middleware calls `next()`, on the request the middleware leaves. -/
def withAuth (env : Env) (next : Request → Store → Response × Store) (req : Request)
    (store : Store) : Outcome :=
  match authenticate env req with
  | .threw e => .uncaught e
  | .responded res => .sent res store
  | .next req' =>
    let r := next req' store
    .sent r.1 r.2

/-- Serving a request on a route. -/
def serve (rest : DeleteRest) (env : Env) (route : Route) (req : Request) (store : Store) :
    Outcome :=
  if route.guarded then
    withAuth env (route.handler rest env) req store
  else
    let r := route.handler rest env req store
    .sent r.1 r.2

/-! ## Sample data -/

/-- Modelled from the spec: a continuation of the delete handler in which the
post is removed permanently and a thrown exception is answered with 500, as in
the sibling handlers.  It only serves the examples. -/
def sampleRest : DeleteRest :=
  { removed := fun _ _ blog store =>
      (⟨200, .message "Blog deleted"⟩, store.filter (fun d => d._id != blog._id))
    thrown := fun e store => (⟨500, .error e⟩, store) }

/-- Two registered users. -/
def sampleUsers : List User :=
  [ ⟨"u1", "Ada", "Lovelace", "ada@example.org", "hash1", 0⟩,
    ⟨"u2", "Alan", "Turing", "alan@example.org", "hash2", 1⟩ ]

/-- An environment in which no store call throws, the tokens `t1` and `t2`
verify for the users `u1` and `u2`, and a regular expression is a plain
case-insensitive substring test. -/
def sampleEnv : Env :=
  { verify := fun t =>
      if t = "t1" then some ⟨some "u1"⟩
      else if t = "t2" then some ⟨some "u2"⟩
      else none
    fault := fun _ => none
    test := fun r s => decide (r.source.toLower.data <:+: s.toLower.data)
    sort := fun _ docs => docs
    users := sampleUsers
    defaultState := some "draft"
    newId := "p9"
    now := 100 }

/-- A draft of user `u1`. -/
def draftPost : Blog :=
  { _id := "p1", title := some "Notes", description := some "A draft",
    tags := some ["lean"], body := "one two three", state := some "draft",
    author := some "u1", read_count := 5, reading_time := 1, timestamp := 10 }

/-- A published post of user `u2`. -/
def publishedPost : Blog :=
  { _id := "p2", title := some "News", description := some "A post",
    tags := some ["logic", "proof"], body := "a b", state := some "published",
    author := some "u2", read_count := 7, reading_time := 1, timestamp := 20 }

/-- A published post of user `u2` whose read count is `2 ^ 53`, the value an
edit of its author with `read_count: 9007199254740992` leaves. -/
def hugePost : Blog :=
  { _id := "p3", title := some "Old news", description := some "A post",
    tags := some ["logic"], body := "a b", state := some "published",
    author := some "u2", read_count := 9007199254740992, reading_time := 1,
    timestamp := 30 }

/-- A store holding both posts. -/
def sampleStore : Store := [draftPost, publishedPost]

/-- A request body without any path. -/
def noFields : Fields :=
  { title := none, description := none, tags := none, body := none, state := none,
    author := none, read_count := none, reading_time := none, timestamp := none }

/-- A query string without any parameter. -/
def noParams : ListParams :=
  { page := none, limit := none, search := none, sort := none, filter := none }

/-- The request of an authenticated user for the post `id`, with body `body`. -/
def requestOf (userId : Option String) (id : String) (body : Fields) : Request :=
  { authorization := none, userId := userId, id := id, query := noParams, body := body }

/-- A request that carries only the header `header`. -/
def requestWithHeader (header : String) : Request :=
  { authorization := some header, userId := none, id := "p1", query := noParams,
    body := noFields }

/-! ## Lemmas on `split` and `calculateReadingTime` -/

theorem split_ne_nil (sep : Char) (s : List Char) : split sep s ≠ [] := by
  induction s with
  | nil => simp [split]
  | cons c cs ih =>
    unfold split
    split
    · simp
    · split <;> simp

theorem split_length (sep : Char) (s : List Char) :
    (split sep s).length = s.count sep + 1 := by
  induction s with
  | nil => simp [split]
  | cons c cs ih =>
    unfold split
    by_cases h : c = sep
    · subst h
      simp [ih]
    · have hne : (c == sep) = false := by simpa using h
      rw [if_neg h, List.count_cons, hne]
      cases hs : split sep cs with
      | nil => exact absurd hs (split_ne_nil sep cs)
      | cons t ts =>
        rw [hs] at ih
        simpa using ih

theorem intercalate_cons_cons (sep x y : List Char) (ys : List (List Char)) :
    List.intercalate sep (x :: y :: ys) = x ++ sep ++ List.intercalate sep (y :: ys) := by
  simp [List.intercalate, List.intersperse_cons_cons, List.flatten_cons]

/-- Joining the pieces with the separator gives the string back. -/
theorem intercalate_split (sep : Char) (s : List Char) :
    List.intercalate [sep] (split sep s) = s := by
  induction s with
  | nil => simp [split, List.intercalate]
  | cons c cs ih =>
    unfold split
    cases hs : split sep cs with
    | nil => exact absurd hs (split_ne_nil sep cs)
    | cons t ts =>
      rw [hs] at ih
      by_cases h : c = sep
      · rw [if_pos h, intercalate_cons_cons, ih, h]
        rfl
      · rw [if_neg h]
        cases ts with
        | nil =>
          simp only [List.intercalate, List.intersperse_singleton, List.flatten_cons,
            List.flatten_nil, List.append_nil] at ih ⊢
          rw [ih]
        | cons u us =>
          rw [intercalate_cons_cons] at ih ⊢
          rw [← ih]
          simp

/-- No piece contains the separator. -/
theorem not_mem_of_mem_split (sep : Char) (s t : List Char) (ht : t ∈ split sep s) :
    sep ∉ t := by
  induction s generalizing t with
  | nil =>
    simp only [split, List.mem_singleton] at ht
    subst ht
    simp
  | cons c cs ih =>
    unfold split at ht
    cases hs : split sep cs with
    | nil => exact absurd hs (split_ne_nil sep cs)
    | cons u us =>
      rw [hs] at ht ih
      by_cases h : c = sep
      · rw [if_pos h] at ht
        rcases List.mem_cons.mp ht with rfl | ht2
        · simp
        · exact ih t ht2
      · rw [if_neg h] at ht
        rcases List.mem_cons.mp ht with rfl | ht2
        · intro hmem
          rcases List.mem_cons.mp hmem with h1 | h2
          · exact h h1.symm
          · exact ih u (List.mem_cons_self _ _) h2
        · exact ih t (List.mem_cons_of_mem _ ht2)

theorem size_eq_of_bounds (a k : Nat) (h1 : 2 ^ k ≤ a) (h2 : a < 2 ^ (k + 1)) :
    a.size = k + 1 := by
  apply le_antisymm
  · exact Nat.size_le.mpr h2
  · exact Nat.lt_size.mpr h1

theorem roundNat_eq (a : Nat) :
    roundNat a =
      (if 2 * (a % 2 ^ (a.size - 53)) < 2 ^ (a.size - 53) then a / 2 ^ (a.size - 53)
        else if 2 ^ (a.size - 53) < 2 * (a % 2 ^ (a.size - 53)) then
          a / 2 ^ (a.size - 53) + 1
        else if a / 2 ^ (a.size - 53) % 2 = 0 then a / 2 ^ (a.size - 53)
        else a / 2 ^ (a.size - 53) + 1) * 2 ^ (a.size - 53) := rfl

/-- Up to `2 ^ 53` every natural number is a double. -/
theorem roundNat_of_le (a : Nat) (h : a ≤ 2 ^ 53) : roundNat a = a := by
  rw [roundNat_eq]
  rcases Nat.lt_or_ge a (2 ^ 53) with hlt | hge
  · have hs : a.size - 53 = 0 := Nat.sub_eq_zero_of_le (Nat.size_le.mpr hlt)
    simp [hs, Nat.mod_one]
  · have ha : a = 2 ^ 53 := le_antisymm h hge
    subst ha
    rw [Nat.size_pow]
    norm_num

theorem roundDouble_of_le (m : Int) (h : m.natAbs ≤ 2 ^ 53) : roundDouble m = m := by
  unfold roundDouble
  rw [roundNat_of_le _ h]
  exact Int.sign_mul_natAbs m

/-- An increment below `2 ^ 53` in magnitude is exact. -/
theorem roundDouble_succ (n : Int) (h : n.natAbs < 2 ^ 53) : roundDouble (n + 1) = n + 1 := by
  apply roundDouble_of_le
  have h1 : (n + 1).natAbs ≤ n.natAbs + (1 : Int).natAbs := Int.natAbs_add_le n 1
  have h2 : (1 : Int).natAbs = 1 := rfl
  omega

/-- At `2 ^ 53` the increment is absorbed: `2 ^ 53 + 1` is half way between two
doubles and goes to the one with the even significand. -/
theorem roundNat_tie : roundNat 9007199254740993 = 9007199254740992 := by
  have hs : Nat.size 9007199254740993 = 54 :=
    size_eq_of_bounds 9007199254740993 53 (by norm_num) (by norm_num)
  rw [roundNat_eq, hs]
  norm_num

theorem roundDouble_tie : roundDouble (9007199254740992 + 1) = 9007199254740992 := by
  have h : ((9007199254740992 + 1 : Int)).natAbs = 9007199254740993 := by norm_num
  have h2 : ((9007199254740992 + 1 : Int)).sign = 1 := by
    show Int.sign 9007199254740993 = 1
    rfl
  unfold roundDouble
  rw [h, h2, roundNat_tie]
  norm_num

theorem ceil_div_eq (w k : Nat) (hk : 0 < k) :
    Nat.ceil ((w : ℚ) / (k : ℚ)) = (w + (k - 1)) / k := by
  have hkq : (0 : ℚ) < (k : ℚ) := by exact_mod_cast hk
  apply le_antisymm
  · rw [Nat.ceil_le, div_le_iff₀ hkq]
    have h1 : w ≤ (w + (k - 1)) / k * k := by
      have h2 := Nat.div_add_mod (w + (k - 1)) k
      have h3 := Nat.mod_lt (w + (k - 1)) hk
      have h4 : k * ((w + (k - 1)) / k) = (w + (k - 1)) / k * k := Nat.mul_comm _ _
      omega
    exact_mod_cast h1
  · rw [Nat.div_le_iff_le_mul_add_pred hk]
    have h1 : (w : ℚ) ≤ (k : ℚ) * (Nat.ceil ((w : ℚ) / (k : ℚ)) : ℚ) := by
      have h2 := Nat.le_ceil ((w : ℚ) / (k : ℚ))
      rw [div_le_iff₀ hkq] at h2
      linarith
    have h3 : w ≤ k * Nat.ceil ((w : ℚ) / (k : ℚ)) := by exact_mod_cast h1
    omega

theorem calculateReadingTime_eq (text : String) :
    calculateReadingTime text = (text.data.count ' ' + 200) / 200 := by
  unfold calculateReadingTime
  simp only []
  rw [ceil_div_eq _ 200 (by decide), split_length]

theorem count_intercalate (sep : Char) (ws : List (List Char))
    (h : ∀ w ∈ ws, sep ∉ w) :
    (List.intercalate [sep] ws).count sep = ws.length - 1 := by
  induction ws with
  | nil => simp [List.intercalate]
  | cons w rest ih =>
    cases rest with
    | nil =>
      have hw : sep ∉ w := h w (by simp)
      simpa [List.intercalate] using List.count_eq_zero_of_not_mem hw
    | cons w2 rest2 =>
      have hw : sep ∉ w := h w (by simp)
      have ih2 := ih (fun x hx => h x (List.mem_cons_of_mem _ hx))
      simp only [List.intercalate, List.intersperse_cons_cons, List.flatten_cons,
        List.count_append, List.length_cons] at ih2 ⊢
      rw [List.count_eq_zero_of_not_mem hw]
      simp only [List.count_cons_self, List.count_nil]
      omega

/-! ## Lemmas on the store -/

theorem find?_id {store : Store} {id : String} {b : Blog}
    (h : store.find? (fun d => d._id == id) = some b) : b._id = id := by
  have := List.find?_some h
  simpa using this

theorem length_replaceDoc (b : Blog) (store : Store) :
    (replaceDoc b store).length = store.length := by
  induction store with
  | nil => rfl
  | cons d ds ih =>
    unfold replaceDoc
    split <;> simp [ih]

theorem find?_replaceDoc_self (b old : Blog) (store : Store)
    (h : store.find? (fun d => d._id == b._id) = some old) :
    (replaceDoc b store).find? (fun d => d._id == b._id) = some b := by
  induction store with
  | nil => simp at h
  | cons d ds ih =>
    unfold replaceDoc
    by_cases hd : d._id = b._id
    · simp [hd]
    · have hd2 : (d._id == b._id) = false := by simpa using hd
      rw [List.find?_cons, hd2] at h
      simp only [hd2, Bool.false_eq_true, if_false, List.find?_cons]
      exact ih h

theorem find?_replaceDoc_other (b : Blog) (store : Store) (id : String) (h : id ≠ b._id) :
    (replaceDoc b store).find? (fun d => d._id == id) = store.find? (fun d => d._id == id) := by
  induction store with
  | nil => rfl
  | cons d ds ih =>
    unfold replaceDoc
    by_cases hd : d._id = b._id
    · have h1 : (d._id == id) = false := by
        simp only [beq_eq_false_iff_ne, ne_eq]
        intro hc
        exact h (hc ▸ hd)
      have h2 : (b._id == id) = false := by
        simp only [beq_eq_false_iff_ne, ne_eq]
        exact fun hc => h hc.symm
      simp [hd, List.find?_cons, h1, h2]
    · have hd2 : (d._id == b._id) = false := by simpa using hd
      simp only [hd2, Bool.false_eq_true, if_false, List.find?_cons, ih]

/-- Position by position, `replaceDoc b` keeps every document except the first
one that carries the identifier of `b`, which becomes `b`. -/
theorem getElem?_replaceDoc (b : Blog) (store : Store) (i : Nat) (d : Blog)
    (h : store[i]? = some d) :
    (replaceDoc b store)[i]? = some d ∨
      ((replaceDoc b store)[i]? = some b ∧
        store.find? (fun x => x._id == b._id) = some d) := by
  induction store generalizing i with
  | nil => simp at h
  | cons x xs ih =>
    unfold replaceDoc
    by_cases hx : x._id = b._id
    · cases i with
      | zero =>
        simp only [List.getElem?_cons_zero, Option.some.injEq] at h
        subst h
        right
        simp [hx]
      | succ j =>
        left
        simpa [hx] using h
    · have hx2 : (x._id == b._id) = false := by simpa using hx
      simp only [hx2, Bool.false_eq_true, if_false]
      cases i with
      | zero => left; simpa using h
      | succ j =>
        simp only [List.getElem?_cons_succ] at h ⊢
        rcases ih j h with h1 | ⟨h1, h2⟩
        · exact Or.inl h1
        · exact Or.inr ⟨h1, by simpa [List.find?_cons, hx2] using h2⟩

theorem findById_ok (env : Env) (store : Store) (id : String)
    (h : env.fault (.findById id) = none) :
    env.findById store id = .ok (store.find? (fun b => b._id == id)) := by
  simp [Env.findById, h]

theorem findById_found {env : Env} {store : Store} {id : String} {b : Option Blog}
    (h : env.findById store id = .ok b) :
    store.find? (fun d => d._id == id) = b := by
  unfold Env.findById at h
  split at h
  · simp at h
  · simpa using h

theorem save_ok (env : Env) (store : Store) (b : Blog) (h : env.fault (.save b) = none) :
    env.save store b = .ok (replaceDoc b store) := by
  simp [Env.save, h]

/-! ## Reading time: claims C1 and C2 -/

/-- C1: for every string body, `calculateReadingTime body` is `ceil (W / 200)`
where `W` is the number of pieces of `body.split(' ')`; `W` is one more than the
number of space characters, so every space of a run delimits a (possibly empty)
piece that is counted; the result is at least 1 whenever `W ≥ 1`; the body
"one two three" gives 1, and any 400 space-free words joined by single spaces
give 2. -/
theorem calculateReadingTime_spec :
    (∀ body : String,
      calculateReadingTime body
          = Nat.ceil (((split ' ' body.data).length : ℚ) / (200 : ℚ))
        ∧ (split ' ' body.data).length = body.data.count ' ' + 1
        ∧ calculateReadingTime body = ((split ' ' body.data).length + 199) / 200
        ∧ (1 ≤ (split ' ' body.data).length → 1 ≤ calculateReadingTime body))
    ∧ calculateReadingTime "one two three" = 1
    ∧ (∀ words : List (List Char), words.length = 400 → (∀ w ∈ words, ' ' ∉ w) →
        calculateReadingTime ⟨List.intercalate [' '] words⟩ = 2) := by
  refine ⟨fun body => ⟨?_, split_length _ _, ?_, ?_⟩, ?_, ?_⟩
  · simp [calculateReadingTime]
  · rw [calculateReadingTime_eq, split_length]
  · intro _
    rw [calculateReadingTime_eq]
    omega
  · rw [calculateReadingTime_eq]
    decide
  · intro words hlen hw
    rw [calculateReadingTime_eq]
    simp only []
    rw [count_intercalate ' ' words hw, hlen]

/-- Witness for C1: 400 copies of the word "w" joined by single spaces. -/
theorem calculateReadingTime_spec_witness :
    calculateReadingTime ⟨List.intercalate [' '] (List.replicate 400 ['w'])⟩ = 2 :=
  calculateReadingTime_spec.2.2 (List.replicate 400 ['w']) (List.length_replicate _ _)
    (by
      intro w hw
      rw [List.eq_of_mem_replicate hw]
      decide)

/-- C2, as stated, fails: the empty body does not give 0. -/
theorem empty_body_not_zero : calculateReadingTime "" ≠ 0 := by
  rw [calculateReadingTime_eq]
  decide

/-- C2, amended: `''.split(' ')` is the one-element array `['']`, so the empty
body has `W = 1` and `calculateReadingTime` returns 1. -/
theorem empty_body_gives_one :
    split ' ' "".data = [[]] ∧ (split ' ' "".data).length = 1
      ∧ calculateReadingTime "" = 1 := by
  refine ⟨by decide, by decide, ?_⟩
  rw [calculateReadingTime_eq]
  decide

/-! ## Ownership: claims C3 and C4 -/

theorem updateState_missing (env : Env) (req : Request) (store : Store)
    (hfind : env.findById store req.id = .ok none) :
    updateState env req store
      = (⟨403, .message "You do not have permission to update this blog"⟩, store) := by
  simp [updateState, hfind]

theorem editBlog_missing (env : Env) (req : Request) (store : Store)
    (hfind : env.findById store req.id = .ok none) :
    editBlog env req store
      = (⟨403, .message "You do not have permission to edit this blog"⟩, store) := by
  simp [editBlog, hfind]

theorem deleteBlog_missing (rest : DeleteRest) (env : Env) (req : Request) (store : Store)
    (hfind : env.findById store req.id = .ok none) :
    deleteBlog rest env req store
      = (⟨403, .message "You do not have permission to delete this blog"⟩, store) := by
  simp [deleteBlog, hfind]

theorem updateState_not_owner (env : Env) (req : Request) (store : Store) (blog : Blog)
    (author : String) (hfind : env.findById store req.id = .ok (some blog))
    (hauthor : blog.author = some author) (hne : some author ≠ req.userId) :
    updateState env req store
      = (⟨403, .message "You do not have permission to update this blog"⟩, store) := by
  simp [updateState, hfind, hauthor, hne]

theorem editBlog_not_owner (env : Env) (req : Request) (store : Store) (blog : Blog)
    (author : String) (hfind : env.findById store req.id = .ok (some blog))
    (hauthor : blog.author = some author) (hne : some author ≠ req.userId) :
    editBlog env req store
      = (⟨403, .message "You do not have permission to edit this blog"⟩, store) := by
  simp [editBlog, hfind, hauthor, hne]

theorem deleteBlog_not_owner (rest : DeleteRest) (env : Env) (req : Request) (store : Store)
    (blog : Blog) (author : String) (hfind : env.findById store req.id = .ok (some blog))
    (hauthor : blog.author = some author) (hne : some author ≠ req.userId) :
    deleteBlog rest env req store
      = (⟨403, .message "You do not have permission to delete this blog"⟩, store) := by
  simp [deleteBlog, hfind, hauthor, hne]

theorem updateState_owner (env : Env) (req : Request) (store store' : Store) (blog : Blog)
    (subject : String) (hfind : env.findById store req.id = .ok (some blog))
    (hauthor : blog.author = some subject) (huser : req.userId = some subject)
    (hsave : env.save store { blog with state := req.body.state } = .ok store') :
    updateState env req store
      = (⟨200, .blog { blog with state := req.body.state }⟩, store') := by
  simp only [hauthor] at hsave
  simp only [updateState, hfind, hauthor, huser, ne_eq, not_true_eq_false, if_false]
  rw [hsave]

theorem editBlog_owner (env : Env) (req : Request) (store store' : Store) (blog : Blog)
    (subject : String) (hfind : env.findById store req.id = .ok (some blog))
    (hauthor : blog.author = some subject) (huser : req.userId = some subject)
    (hsave : env.save store
      { assign blog req.body with
        reading_time := calculateReadingTime (assign blog req.body).body } = .ok store') :
    editBlog env req store
      = (⟨200, .blog { assign blog req.body with
            reading_time := calculateReadingTime (assign blog req.body).body }⟩, store') := by
  simp only [editBlog, hfind, hauthor, huser, ne_eq, not_true_eq_false, if_false]
  rw [hsave]

theorem save_found {env : Env} {store store' : Store} {b : Blog} (old : Blog)
    (hsave : env.save store b = .ok store')
    (hold : store.find? (fun d => d._id == b._id) = some old) :
    store' = replaceDoc b store ∧ store'.find? (fun d => d._id == b._id) = some b := by
  unfold Env.save at hsave
  split at hsave
  · simp at hsave
  · simp only [Except.ok.injEq] at hsave
    subst hsave
    exact ⟨rfl, find?_replaceDoc_self b old store hold⟩

/-- C3: for the state-change, edit and delete handlers and every authenticated
subject, when the id resolves to a stored post whose author differs from the
subject the response is 403 and the store is left as it was; when the stored
author is the subject and the save does not fail, state-change and edit respond
200 with the updated post, which is then the stored post. -/
theorem ownership_spec (rest : DeleteRest) (env : Env) (req : Request) (store : Store)
    (subject author : String) (blog : Blog)
    (hsubject : req.userId = some subject)
    (hfind : env.findById store req.id = .ok (some blog))
    (hauthor : blog.author = some author) :
    (author ≠ subject →
        ((updateState env req store).1.status = 403 ∧ (updateState env req store).2 = store)
      ∧ ((editBlog env req store).1.status = 403 ∧ (editBlog env req store).2 = store)
      ∧ ((deleteBlog rest env req store).1.status = 403
          ∧ (deleteBlog rest env req store).2 = store))
    ∧ (author = subject →
        (∀ store', env.save store { blog with state := req.body.state } = .ok store' →
          updateState env req store
              = (⟨200, .blog { blog with state := req.body.state }⟩, store')
            ∧ store'.find? (fun d => d._id == req.id)
                = some { blog with state := req.body.state })
      ∧ (∀ store', env.save store
              { assign blog req.body with
                reading_time := calculateReadingTime (assign blog req.body).body } = .ok store' →
          editBlog env req store
              = (⟨200, .blog { assign blog req.body with
                    reading_time := calculateReadingTime (assign blog req.body).body }⟩, store')
            ∧ store'.find? (fun d => d._id == req.id)
                = some { assign blog req.body with
                    reading_time := calculateReadingTime (assign blog req.body).body })) := by
  have hold := findById_found hfind
  have hid : blog._id = req.id := find?_id hold
  refine ⟨fun hne => ?_, fun heq => ⟨fun store' hsave => ?_, fun store' hsave => ?_⟩⟩
  · have hne2 : some author ≠ req.userId := by
      rw [hsubject]
      simpa using hne
    rw [updateState_not_owner env req store blog author hfind hauthor hne2,
      editBlog_not_owner env req store blog author hfind hauthor hne2,
      deleteBlog_not_owner rest env req store blog author hfind hauthor hne2]
    simp
  · subst heq
    refine ⟨updateState_owner env req store store' blog author hfind hauthor hsubject hsave, ?_⟩
    have h := (save_found blog hsave (by simpa [hid] using hold)).2
    simpa [hid] using h
  · subst heq
    refine ⟨editBlog_owner env req store store' blog author hfind hauthor hsubject hsave, ?_⟩
    have h := (save_found blog hsave (by simpa [assign, hid] using hold)).2
    simpa [assign, hid] using h

/-- Witness for C3: user `u2` may not change the draft of `u1`. -/
theorem ownership_spec_witness :
    (updateState sampleEnv (requestOf (some "u2") "p1" noFields) sampleStore).1.status = 403
      ∧ (updateState sampleEnv (requestOf (some "u2") "p1" noFields) sampleStore).2
          = sampleStore :=
  ((ownership_spec sampleRest sampleEnv (requestOf (some "u2") "p1" noFields) sampleStore
      "u2" "u1" draftPost rfl rfl rfl).1 (by decide)).1

/-- C4, as stated, fails: on a store without the post, the three handlers answer
403, not 404. -/
theorem missing_post_not_404 :
    sampleEnv.findById [] (requestOf (some "u1") "p1" noFields).id = .ok none
      ∧ (updateState sampleEnv (requestOf (some "u1") "p1" noFields) []).1.status = 403
      ∧ (editBlog sampleEnv (requestOf (some "u1") "p1" noFields) []).1.status = 403
      ∧ (deleteBlog sampleRest sampleEnv (requestOf (some "u1") "p1" noFields) []).1.status = 403
      ∧ (updateState sampleEnv (requestOf (some "u1") "p1" noFields) []).1.status ≠ 404
      ∧ (editBlog sampleEnv (requestOf (some "u1") "p1" noFields) []).1.status ≠ 404
      ∧ (deleteBlog sampleRest sampleEnv (requestOf (some "u1") "p1" noFields) []).1.status
          ≠ 404 := by
  refine ⟨rfl, rfl, rfl, rfl, ?_, ?_, ?_⟩ <;> decide

/-- C4, amended: when the id resolves to no stored post, the state-change, edit
and delete handlers respond 403 and leave the store as it was, which is the
status they return for a post that is present but not owned by the subject; the
state-change and edit handlers never respond 404. -/
theorem missing_post_forbidden (rest : DeleteRest) (env : Env) (req : Request)
    (store : Store) (hfind : env.findById store req.id = .ok none) :
    (updateState env req store
        = (⟨403, .message "You do not have permission to update this blog"⟩, store)
      ∧ editBlog env req store
        = (⟨403, .message "You do not have permission to edit this blog"⟩, store)
      ∧ deleteBlog rest env req store
        = (⟨403, .message "You do not have permission to delete this blog"⟩, store))
    ∧ (∀ (other : Store) (blog : Blog) (author subject : String),
        req.userId = some subject → env.findById other req.id = .ok (some blog) →
        blog.author = some author → author ≠ subject →
          (updateState env req other).1.status = (updateState env req store).1.status
        ∧ (editBlog env req other).1.status = (editBlog env req store).1.status
        ∧ (deleteBlog rest env req other).1.status = (deleteBlog rest env req store).1.status)
    ∧ (∀ (env2 : Env) (req2 : Request) (store2 : Store),
        (updateState env2 req2 store2).1.status ≠ 404
        ∧ (editBlog env2 req2 store2).1.status ≠ 404) := by
  refine ⟨⟨updateState_missing env req store hfind, editBlog_missing env req store hfind,
    deleteBlog_missing rest env req store hfind⟩, ?_, ?_⟩
  · intro other blog author subject hsubject hfound hauthor hne
    have hne2 : some author ≠ req.userId := by
      rw [hsubject]
      simpa using hne
    rw [updateState_not_owner env req other blog author hfound hauthor hne2,
      editBlog_not_owner env req other blog author hfound hauthor hne2,
      deleteBlog_not_owner rest env req other blog author hfound hauthor hne2,
      updateState_missing env req store hfind, editBlog_missing env req store hfind,
      deleteBlog_missing rest env req store hfind]
    simp
  · intro env2 req2 store2
    constructor
    · unfold updateState
      repeat' split
      all_goals first | (simp; done) | (dsimp only; split <;> simp)
    · unfold editBlog
      repeat' split
      all_goals first | (simp; done) | (dsimp only; split <;> simp)

/-- Witness for C4 (amended): the post `p7` is not in the sample store. -/
theorem missing_post_forbidden_witness :
    updateState sampleEnv (requestOf (some "u1") "p7" noFields) sampleStore
      = (⟨403, .message "You do not have permission to update this blog"⟩, sampleStore) :=
  (missing_post_forbidden sampleRest sampleEnv (requestOf (some "u1") "p7" noFields)
    sampleStore rfl).1.1

/-! ## The shape of each handler's result -/

theorem save_eq {env : Env} {store store' : Store} {b : Blog}
    (hsave : env.save store b = .ok store') : store' = replaceDoc b store := by
  unfold Env.save at hsave
  split at hsave
  · simp at hsave
  · simpa using hsave.symm

theorem getBlogs_store (env : Env) (req : Request) (store : Store) :
    (getBlogs env req store).2 = store := by
  unfold getBlogs
  dsimp only
  split
  · rfl
  · split <;> rfl

/-- The fetch handler either leaves the store alone, with a status other than
200, or it found a published post and stored it with its read count plus one. -/
theorem getBlog_cases (env : Env) (req : Request) (store : Store) :
    ((getBlog env req store).2 = store
        ∧ ((getBlog env req store).1.status = 500 ∨ (getBlog env req store).1.status = 404))
    ∨ ∃ blog, store.find? (fun d => d._id == req.id) = some blog
        ∧ blog.state = some "published"
        ∧ getBlog env req store
            = (⟨200, .populated (populate env { blog with read_count := roundDouble (blog.read_count + 1) })⟩,
                replaceDoc { blog with read_count := roundDouble (blog.read_count + 1) } store) := by
  unfold getBlog
  cases hf : env.findById store req.id with
  | error e => left; simp
  | ok found =>
    cases found with
    | none => left; simp
    | some blog =>
      by_cases hp : blog.state = some "published"
      · dsimp only
        rw [if_neg (not_not.mpr hp)]
        cases hs : env.save store { blog with read_count := roundDouble (blog.read_count + 1) } with
        | error e => left; simp
        | ok store' =>
          right
          exact ⟨blog, findById_found hf, hp, by rw [save_eq hs]⟩
      · left
        simp [hp]

/-- The create handler either leaves the store alone, with status 500, or it
appends the new post, whose reading time it computed from the request body. -/
theorem createBlog_cases (env : Env) (req : Request) (store : Store) :
    ((createBlog env req store).2 = store ∧ (createBlog env req store).1.status = 500)
    ∨ ∃ body, req.body.body = some body
        ∧ createBlog env req store
            = (⟨201, .blog (Blog.new env req.body.title req.body.description req.userId
                  req.body.tags body (calculateReadingTime body))⟩,
                store ++ [Blog.new env req.body.title req.body.description req.userId
                  req.body.tags body (calculateReadingTime body)]) := by
  unfold createBlog
  cases hb : req.body.body with
  | none => left; simp
  | some body =>
    dsimp only
    cases hi : env.insert store (Blog.new env req.body.title req.body.description req.userId
        req.body.tags body (calculateReadingTime body)) with
    | error e => left; simp
    | ok store' =>
      right
      refine ⟨body, rfl, ?_⟩
      unfold Env.insert at hi
      split at hi
      · simp at hi
      · split at hi
        · simp at hi
        · simp only [Except.ok.injEq] at hi
          rw [← hi]

/-- The state-change handler either leaves the store alone, with status 500 or
403, or it found a post of the requester and stored it with the new state. -/
theorem updateState_cases (env : Env) (req : Request) (store : Store) :
    ((updateState env req store).2 = store
        ∧ ((updateState env req store).1.status = 500
            ∨ (updateState env req store).1.status = 403))
    ∨ ∃ blog, store.find? (fun d => d._id == req.id) = some blog
        ∧ updateState env req store
            = (⟨200, .blog { blog with state := req.body.state }⟩,
                replaceDoc { blog with state := req.body.state } store) := by
  generalize hr : updateState env req store = r
  unfold updateState at hr
  split at hr
  · subst hr; left; simp
  · subst hr; left; simp
  · rename_i blog hf
    split at hr
    · subst hr; left; simp
    · rename_i author ha
      split at hr
      · subst hr; left; simp
      · rename_i hu
        dsimp only at hr
        split at hr
        · subst hr; left; simp
        · rename_i store' hs
          subst hr
          right
          exact ⟨blog, findById_found hf, by rw [save_eq hs]⟩

/-- The edit handler either leaves the store alone, with status 500 or 403, or
it found a post of the requester and stored it with the request's paths
assigned and the reading time recomputed. -/
theorem editBlog_cases (env : Env) (req : Request) (store : Store) :
    ((editBlog env req store).2 = store
        ∧ ((editBlog env req store).1.status = 500 ∨ (editBlog env req store).1.status = 403))
    ∨ ∃ blog, store.find? (fun d => d._id == req.id) = some blog
        ∧ editBlog env req store
            = (⟨200, .blog { assign blog req.body with
                  reading_time := calculateReadingTime (assign blog req.body).body }⟩,
                replaceDoc { assign blog req.body with
                  reading_time := calculateReadingTime (assign blog req.body).body } store) := by
  generalize hr : editBlog env req store = r
  unfold editBlog at hr
  split at hr
  · subst hr; left; simp
  · subst hr; left; simp
  · rename_i blog hf
    split at hr
    · subst hr; left; simp
    · rename_i author ha
      split at hr
      · subst hr; left; simp
      · rename_i hu
        dsimp only at hr
        split at hr
        · subst hr; left; simp
        · rename_i store' hs
          subst hr
          right
          exact ⟨blog, findById_found hf, by rw [save_eq hs]⟩

theorem getElem?_replaceDoc_of_found (b1 blog : Blog) (store : Store) (id : String)
    (i : Nat) (d : Blog) (hid : b1._id = id)
    (hfound : store.find? (fun x => x._id == id) = some blog) (h : store[i]? = some d) :
    (replaceDoc b1 store)[i]? = some d ∨ ((replaceDoc b1 store)[i]? = some b1 ∧ d = blog) := by
  rcases getElem?_replaceDoc b1 store i d h with h1 | ⟨h1, h2⟩
  · exact Or.inl h1
  · right
    refine ⟨h1, ?_⟩
    rw [hid, hfound] at h2
    exact (Option.some.inj h2).symm

theorem getElem?_append_new (store : Store) (b d : Blog) (i : Nat) (h : store[i]? = some d) :
    (store ++ [b])[i]? = some d := by
  have hi : i < store.length := by
    by_contra hc
    rw [List.getElem?_eq_none (Nat.le_of_not_lt hc)] at h
    simp at h
  rw [List.getElem?_append_left hi]
  exact h

/-! ## Fetch by id: claim C5 -/

theorem getBlog_published (env : Env) (req : Request) (store : Store) (b : Blog)
    (hfind : env.fault (.findById req.id) = none)
    (hsave : ∀ d, env.fault (.save d) = none)
    (hb : store.find? (fun d => d._id == req.id) = some b)
    (hp : b.state = some "published") :
    getBlog env req store
      = (⟨200, .populated (populate env { b with read_count := roundDouble (b.read_count + 1) })⟩,
          replaceDoc { b with read_count := roundDouble (b.read_count + 1) } store) := by
  have hf := findById_ok env store req.id hfind
  rw [hb] at hf
  simp only [getBlog, hf, hp, ne_eq, not_true_eq_false, if_false]
  rw [save_ok env store _ (hsave _)]

/-- C5, as stated, fails: the published post `p3` has read count `2 ^ 53`; the
fetch responds 200 and stores `2 ^ 53` again, not `2 ^ 53 + 1`, because the
double addition of line 69 rounds. -/
theorem read_count_absorbed :
    hugePost.state = some "published"
      ∧ hugePost.read_count = 9007199254740992
      ∧ (getBlog sampleEnv (requestOf none "p3" noFields) [draftPost, hugePost]).1.status = 200
      ∧ ((getBlog sampleEnv (requestOf none "p3" noFields) [draftPost, hugePost]).2.find?
            (fun d => d._id == "p3")).map (fun d => d.read_count) = some 9007199254740992
      ∧ ((getBlog sampleEnv (requestOf none "p3" noFields) [draftPost, hugePost]).2.find?
            (fun d => d._id == "p3")).map (fun d => d.read_count)
          ≠ some (hugePost.read_count + 1) := by
  have h := getBlog_published sampleEnv (requestOf none "p3" noFields) [draftPost, hugePost]
    hugePost rfl (fun _ => rfl) rfl rfl
  have hr : roundDouble (hugePost.read_count + 1) = 9007199254740992 := roundDouble_tie
  rw [h, hr]
  refine ⟨rfl, rfl, rfl, rfl, ?_⟩
  intro hc
  revert hc
  decide

/-- C5, amended: when the store calls of the fetch handler do not throw, it
responds 404 exactly when the id resolves to no stored post or to a post whose
state is not `published`, and then the store is left as it was; otherwise it
stores the post with the double nearest to its read count plus one, which is
its read count plus exactly one whenever the read count is below `2 ^ 53` in
magnitude, every other path and every other post being left as they were, and
responds 200 with that post. -/
theorem getBlog_spec (env : Env) (req : Request) (store : Store)
    (hfind : env.fault (.findById req.id) = none)
    (hsave : ∀ b, env.fault (.save b) = none) :
    ((getBlog env req store).1.status = 404 ↔
        (store.find? (fun d => d._id == req.id) = none
          ∨ ∃ b, store.find? (fun d => d._id == req.id) = some b ∧ b.state ≠ some "published"))
    ∧ ((getBlog env req store).1.status = 404 → (getBlog env req store).2 = store)
    ∧ (∀ b, store.find? (fun d => d._id == req.id) = some b → b.state = some "published" →
        getBlog env req store
            = (⟨200, .populated
                  (populate env { b with read_count := roundDouble (b.read_count + 1) })⟩,
                replaceDoc { b with read_count := roundDouble (b.read_count + 1) } store)
          ∧ (getBlog env req store).2.find? (fun d => d._id == req.id)
              = some { b with read_count := roundDouble (b.read_count + 1) }
          ∧ (∀ id, id ≠ req.id →
              (getBlog env req store).2.find? (fun d => d._id == id)
                = store.find? (fun d => d._id == id))
          ∧ (getBlog env req store).2.length = store.length
          ∧ (b.read_count.natAbs < 2 ^ 53 →
              getBlog env req store
                  = (⟨200, .populated (populate env { b with read_count := b.read_count + 1 })⟩,
                      replaceDoc { b with read_count := b.read_count + 1 } store)
                ∧ (populate env { b with read_count := b.read_count + 1 }).doc.read_count
                    = b.read_count + 1
                ∧ (getBlog env req store).2.find? (fun d => d._id == req.id)
                    = some { b with read_count := b.read_count + 1 })) := by
  have hf := findById_ok env store req.id hfind
  have hpub := getBlog_published env req store
  have hnone : store.find? (fun d => d._id == req.id) = none →
      getBlog env req store = (⟨404, .message "Blog not found"⟩, store) := by
    intro hb
    rw [hb] at hf
    simp [getBlog, hf]
  have hdraft : ∀ b, store.find? (fun d => d._id == req.id) = some b →
      b.state ≠ some "published" →
      getBlog env req store = (⟨404, .message "Blog not found"⟩, store) := by
    intro b hb hp
    rw [hb] at hf
    simp [getBlog, hf, hp]
  have hstored : ∀ b, store.find? (fun d => d._id == req.id) = some b →
      b.state = some "published" →
      (getBlog env req store).2.find? (fun d => d._id == req.id)
        = some { b with read_count := roundDouble (b.read_count + 1) } := by
    intro b hb hp
    have hid : b._id = req.id := find?_id hb
    rw [hpub b hfind hsave hb hp]
    have h := find?_replaceDoc_self { b with read_count := roundDouble (b.read_count + 1) } b
      store (by simpa [hid] using hb)
    simpa [hid] using h
  refine ⟨⟨fun h404 => ?_, fun h => ?_⟩, fun h404 => ?_, fun b hb hp => ?_⟩
  · cases hb : store.find? (fun d => d._id == req.id) with
    | none => exact Or.inl rfl
    | some b =>
      right
      refine ⟨b, rfl, fun hp => ?_⟩
      rw [hpub b hfind hsave hb hp] at h404
      simp at h404
  · rcases h with h | ⟨b, hb, hp⟩
    · rw [hnone h]
    · rw [hdraft b hb hp]
  · cases hb : store.find? (fun d => d._id == req.id) with
    | none => rw [hnone hb]
    | some b =>
      by_cases hp : b.state = some "published"
      · rw [hpub b hfind hsave hb hp] at h404
        simp at h404
      · rw [hdraft b hb hp]
  · have hid : b._id = req.id := find?_id hb
    refine ⟨hpub b hfind hsave hb hp, hstored b hb hp, fun id hne => ?_, ?_, fun hbound => ?_⟩
    · rw [hpub b hfind hsave hb hp]
      exact find?_replaceDoc_other _ store id (by simpa [hid] using hne)
    · rw [hpub b hfind hsave hb hp]
      exact length_replaceDoc _ store
    · have hexact := roundDouble_succ b.read_count hbound
      refine ⟨?_, rfl, ?_⟩
      · rw [hpub b hfind hsave hb hp, hexact]
      · rw [hstored b hb hp, hexact]

/-- Witness for C5 (amended): fetching the published post `p2` of the sample
store, whose read count is 7. -/
theorem getBlog_spec_witness :
    (getBlog sampleEnv (requestOf none "p2" noFields) sampleStore).2.find?
        (fun d => d._id == "p2")
      = some { publishedPost with read_count := publishedPost.read_count + 1 } :=
  ((getBlog_spec sampleEnv (requestOf none "p2" noFields) sampleStore rfl (fun _ => rfl)).2.2
    publishedPost rfl rfl).2.2.2.2 (by decide) |>.2.2

/-! ## Read count: claim C6 -/

/-- C6, as stated, fails: the author `u1` edits the draft `p1`, whose read count
is 5, with a request body that carries `read_count: 0`; the edit succeeds and
the stored read count is 0. -/
theorem read_count_decreases :
    sampleStore.find? (fun d => d._id == "p1") = some draftPost
      ∧ draftPost.read_count = 5
      ∧ (editBlog sampleEnv
          (requestOf (some "u1") "p1" { noFields with read_count := some 0 }) sampleStore).1.status
          = 200
      ∧ ((editBlog sampleEnv
          (requestOf (some "u1") "p1" { noFields with read_count := some 0 }) sampleStore).2.find?
            (fun d => d._id == "p1")).map (fun d => d.read_count) = some 0
      ∧ ¬ (∀ b', (editBlog sampleEnv
            (requestOf (some "u1") "p1" { noFields with read_count := some 0 }) sampleStore).2.find?
              (fun d => d._id == "p1") = some b' → draftPost.read_count ≤ b'.read_count) := by
  refine ⟨rfl, rfl, rfl, rfl, fun h => ?_⟩
  have h2 := h _ rfl
  revert h2
  decide

/-- C6, amended: under list, fetch-by-id, create, state-change, and an edit
whose request body carries no `read_count`, the read count of every stored post
that is below `2 ^ 53` in magnitude is afterwards at least what it was, and it
differs only for the post returned by a fetch-by-id that responds 200, a
published post, whose read count grows by exactly 1.  An edit whose request body
carries a `read_count` (a double) and that responds 200 stores the supplied
value. -/
theorem read_count_spec (rest : DeleteRest) (env : Env) (req : Request) (store : Store) :
    (∀ route : Route, route ≠ .delete → (route = .edit → req.body.read_count = none) →
      ∀ (i : Nat) (b : Blog), store[i]? = some b → b.read_count.natAbs < 2 ^ 53 →
        ∃ b', (route.handler rest env req store).2[i]? = some b'
          ∧ b.read_count ≤ b'.read_count
          ∧ (b'.read_count ≠ b.read_count →
              route = .fetch ∧ b._id = req.id ∧ b.state = some "published"
                ∧ b'.read_count = b.read_count + 1
                ∧ (route.handler rest env req store).1.status = 200))
    ∧ (∀ v : Int, roundDouble v = v → req.body.read_count = some v →
        (editBlog env req store).1.status = 200 →
        ∃ b', (editBlog env req store).2.find? (fun d => d._id == req.id) = some b'
          ∧ b'.read_count = v) := by
  constructor
  · intro route hdel hedit i b hb hbound
    cases route with
    | delete => exact absurd rfl hdel
    | list =>
      refine ⟨b, ?_, le_refl _, fun h => absurd rfl h⟩
      show (getBlogs env req store).2[i]? = some b
      rw [getBlogs_store]
      exact hb
    | fetch =>
      show ∃ b', (getBlog env req store).2[i]? = some b' ∧ _
      rcases getBlog_cases env req store with ⟨hs, _⟩ | ⟨blog, hfound, hpub, heq⟩
      · refine ⟨b, by rw [hs]; exact hb, le_refl _, fun h => absurd rfl h⟩
      · rcases getElem?_replaceDoc_of_found
            { blog with read_count := roundDouble (blog.read_count + 1) }
            blog store req.id i b (find?_id hfound : blog._id = req.id) hfound hb with
          h1 | ⟨h1, h2⟩
        · refine ⟨b, by rw [heq]; exact h1, le_refl _, fun h => absurd rfl h⟩
        · subst h2
          have hexact : roundDouble (b.read_count + 1) = b.read_count + 1 :=
            roundDouble_succ b.read_count hbound
          refine ⟨{ b with read_count := roundDouble (b.read_count + 1) },
            by rw [heq]; exact h1, ?_, ?_⟩
          · show b.read_count ≤ roundDouble (b.read_count + 1)
            rw [hexact]
            omega
          · intro _
            refine ⟨rfl, find?_id hfound, hpub, hexact, ?_⟩
            show (getBlog env req store).1.status = 200
            rw [heq]
    | create =>
      show ∃ b', (createBlog env req store).2[i]? = some b' ∧ _
      rcases createBlog_cases env req store with ⟨hs, _⟩ | ⟨body, _, heq⟩
      · refine ⟨b, by rw [hs]; exact hb, le_refl _, fun h => absurd rfl h⟩
      · refine ⟨b, ?_, le_refl _, fun h => absurd rfl h⟩
        rw [heq]
        exact getElem?_append_new store _ b i hb
    | state =>
      show ∃ b', (updateState env req store).2[i]? = some b' ∧ _
      rcases updateState_cases env req store with ⟨hs, _⟩ | ⟨blog, hfound, heq⟩
      · refine ⟨b, by rw [hs]; exact hb, le_refl _, fun h => absurd rfl h⟩
      · rcases getElem?_replaceDoc_of_found { blog with state := req.body.state }
            blog store req.id i b (find?_id hfound : blog._id = req.id) hfound hb with
          h1 | ⟨h1, h2⟩
        · refine ⟨b, by rw [heq]; exact h1, le_refl _, fun h => absurd rfl h⟩
        · subst h2
          exact ⟨{ b with state := req.body.state }, by rw [heq]; exact h1, le_refl _,
            fun h => absurd rfl h⟩
    | edit =>
      have hnone := hedit rfl
      show ∃ b', (editBlog env req store).2[i]? = some b' ∧ _
      rcases editBlog_cases env req store with ⟨hs, _⟩ | ⟨blog, hfound, heq⟩
      · refine ⟨b, by rw [hs]; exact hb, le_refl _, fun h => absurd rfl h⟩
      · have hrc : (assign blog req.body).read_count = blog.read_count := by
          simp [assign, hnone]
        rcases getElem?_replaceDoc_of_found { assign blog req.body with
              reading_time := calculateReadingTime (assign blog req.body).body }
            blog store req.id i b (find?_id hfound : blog._id = req.id) hfound hb with
          h1 | ⟨h1, h2⟩
        · refine ⟨b, by rw [heq]; exact h1, le_refl _, fun h => absurd rfl h⟩
        · subst h2
          refine ⟨_, by rw [heq]; exact h1, ?_, fun h => absurd ?_ h⟩
          · exact le_of_eq hrc.symm
          · exact hrc
  · intro v _ hv h200
    rcases editBlog_cases env req store with ⟨_, h500 | h403⟩ | ⟨blog, hfound, heq⟩
    · rw [h500] at h200
      exact absurd h200 (by decide)
    · rw [h403] at h200
      exact absurd h200 (by decide)
    · have hid : blog._id = req.id := find?_id hfound
      refine ⟨{ assign blog req.body with
        reading_time := calculateReadingTime (assign blog req.body).body }, ?_, ?_⟩
      · rw [heq]
        have h := find?_replaceDoc_self { assign blog req.body with
            reading_time := calculateReadingTime (assign blog req.body).body } blog store
          (by simpa [assign, hid] using hfound)
        simpa [assign, hid] using h
      · simp [assign, hv]

/-- Witness for C6 (amended): a fetch of the published post `p2`, observed at
its position in the sample store. -/
theorem read_count_spec_witness :
    ∃ b', (Route.fetch.handler sampleRest sampleEnv (requestOf none "p2" noFields)
          sampleStore).2[1]? = some b'
      ∧ publishedPost.read_count ≤ b'.read_count
      ∧ (b'.read_count ≠ publishedPost.read_count →
          Route.fetch = Route.fetch ∧ publishedPost._id = (requestOf none "p2" noFields).id
            ∧ publishedPost.state = some "published"
            ∧ b'.read_count = publishedPost.read_count + 1
            ∧ (Route.fetch.handler sampleRest sampleEnv (requestOf none "p2" noFields)
                sampleStore).1.status = 200) :=
  (read_count_spec sampleRest sampleEnv (requestOf none "p2" noFields) sampleStore).1
    Route.fetch (by decide) (fun h => absurd h (by decide)) 1 publishedPost rfl (by decide)

/-! ## Reading time on write: claim C7 -/

/-- C7: a create that responds 201 appends a post whose body is the request's
body and whose reading time is `calculateReadingTime` of that body; an edit that
responds 200, whatever paths its request body carries, stores a post whose body
is the request's body when it carries one and the stored body otherwise, and
whose reading time is `calculateReadingTime` of that body; state-change and
fetch-by-id leave the body and the reading time of every stored post as they
were. -/
theorem reading_time_spec (env : Env) (req : Request) (store : Store) :
    ((createBlog env req store).1.status = 201 →
      ∃ blog, createBlog env req store = (⟨201, .blog blog⟩, store ++ [blog])
        ∧ req.body.body = some blog.body
        ∧ blog.reading_time = calculateReadingTime blog.body)
    ∧ ((editBlog env req store).1.status = 200 →
      ∃ old blog, store.find? (fun d => d._id == req.id) = some old
        ∧ editBlog env req store = (⟨200, .blog blog⟩, replaceDoc blog store)
        ∧ (editBlog env req store).2.find? (fun d => d._id == req.id) = some blog
        ∧ blog.body = req.body.body.getD old.body
        ∧ blog.reading_time = calculateReadingTime blog.body)
    ∧ (∀ (i : Nat) (b : Blog), store[i]? = some b →
        ∃ b', (updateState env req store).2[i]? = some b'
          ∧ b'.body = b.body ∧ b'.reading_time = b.reading_time)
    ∧ (∀ (i : Nat) (b : Blog), store[i]? = some b →
        ∃ b', (getBlog env req store).2[i]? = some b'
          ∧ b'.body = b.body ∧ b'.reading_time = b.reading_time) := by
  refine ⟨fun h201 => ?_, fun h200 => ?_, fun i b hb => ?_, fun i b hb => ?_⟩
  · rcases createBlog_cases env req store with ⟨_, h500⟩ | ⟨body, hbody, heq⟩
    · rw [h500] at h201
      exact absurd h201 (by decide)
    · exact ⟨_, heq, hbody, rfl⟩
  · rcases editBlog_cases env req store with ⟨_, h500 | h403⟩ | ⟨old, hfound, heq⟩
    · rw [h500] at h200
      exact absurd h200 (by decide)
    · rw [h403] at h200
      exact absurd h200 (by decide)
    · have hid : old._id = req.id := find?_id hfound
      refine ⟨old, { assign old req.body with
        reading_time := calculateReadingTime (assign old req.body).body }, hfound, heq, ?_, rfl, rfl⟩
      rw [heq]
      have h := find?_replaceDoc_self { assign old req.body with
          reading_time := calculateReadingTime (assign old req.body).body } old store
        (by simpa [assign, hid] using hfound)
      simpa [assign, hid] using h
  · rcases updateState_cases env req store with ⟨hs, _⟩ | ⟨blog, hfound, heq⟩
    · exact ⟨b, by rw [hs]; exact hb, rfl, rfl⟩
    · rcases getElem?_replaceDoc_of_found { blog with state := req.body.state }
          blog store req.id i b (find?_id hfound : blog._id = req.id) hfound hb with h1 | ⟨h1, h2⟩
      · exact ⟨b, by rw [heq]; exact h1, rfl, rfl⟩
      · subst h2
        exact ⟨{ b with state := req.body.state }, by rw [heq]; exact h1, rfl, rfl⟩
  · rcases getBlog_cases env req store with ⟨hs, _⟩ | ⟨blog, hfound, _, heq⟩
    · exact ⟨b, by rw [hs]; exact hb, rfl, rfl⟩
    · rcases getElem?_replaceDoc_of_found { blog with read_count := roundDouble (blog.read_count + 1) }
          blog store req.id i b (find?_id hfound : blog._id = req.id) hfound hb with h1 | ⟨h1, h2⟩
      · exact ⟨b, by rw [heq]; exact h1, rfl, rfl⟩
      · subst h2
        exact ⟨{ b with read_count := roundDouble (b.read_count + 1) }, by rw [heq]; exact h1, rfl, rfl⟩

/-- Witness for C7: the author edits `p1` with a request body that carries a
reading time of 99 and no body. -/
theorem reading_time_spec_witness :
    ∃ old blog, sampleStore.find? (fun d => d._id == "p1") = some old
      ∧ editBlog sampleEnv
          (requestOf (some "u1") "p1" { noFields with reading_time := some 99 }) sampleStore
          = (⟨200, .blog blog⟩, replaceDoc blog sampleStore)
      ∧ (editBlog sampleEnv
          (requestOf (some "u1") "p1" { noFields with reading_time := some 99 }) sampleStore).2.find?
            (fun d => d._id == "p1") = some blog
      ∧ blog.body = (none : Option String).getD old.body
      ∧ blog.reading_time = calculateReadingTime blog.body :=
  (reading_time_spec sampleEnv
    (requestOf (some "u1") "p1" { noFields with reading_time := some 99 }) sampleStore).2.1 rfl

/-! ## Listing: claims C8 and C9 -/

theorem buildQuery_state (filter search : Option String) :
    (buildQuery filter search).state = if truthy filter then filter.getD "" else "published" := by
  unfold buildQuery
  cases filter with
  | none =>
    cases search with
    | none => rfl
    | some s => dsimp only; split <;> rfl
  | some f =>
    cases search with
    | none => dsimp only; split <;> rfl
    | some s => dsimp only; split <;> split <;> rfl

theorem buildQuery_or (filter search : Option String) :
    (buildQuery filter search).or =
      if truthy search then
        some [.title ⟨search.getD "", "i"⟩, .tags ⟨search.getD "", "i"⟩,
          .author ⟨search.getD "", "i"⟩]
      else none := by
  unfold buildQuery
  cases filter with
  | none =>
    cases search with
    | none => rfl
    | some s => dsimp only; split <;> rfl
  | some f =>
    cases search with
    | none => dsimp only; split <;> rfl
    | some s => dsimp only; split <;> split <;> rfl

theorem holds_iff (env : Env) (q : Query) (b : Blog) :
    q.holds env b = true ↔
      b.state = some q.state ∧ ∀ cs, q.or = some cs → ∃ c ∈ cs, c.holds env b = true := by
  unfold Query.holds
  cases hq : q.or with
  | none => simp
  | some cs => simp

theorem getBlogs_congr (env : Env) (req1 req2 : Request) (store : Store)
    (h : req1.query = req2.query) : getBlogs env req1 store = getBlogs env req2 store := by
  unfold getBlogs
  rw [h]

/-- C8: the filter object built by the listing handler has `state` equal to
`published` when no filter is supplied and to the filter when one is supplied
(the published condition is then gone); without a search it has no further
condition, and with a search it also requires one of three case-insensitive
regular-expression matches of the search string, on the title, on a tag or on
the author reference.  A parameter that is the empty string counts as not
supplied.  The listing depends on the request through its query string only,
never through the caller's identity. -/
theorem buildQuery_spec (env : Env) (filter search : Option String) (b : Blog) :
    (filter = none → (buildQuery filter search).state = "published")
    ∧ (∀ f, filter = some f → f ≠ "" → (buildQuery filter search).state = f)
    ∧ (search = none →
        (buildQuery filter search).or = none
        ∧ ((buildQuery filter search).holds env b = true
            ↔ b.state = some (buildQuery filter search).state))
    ∧ (∀ s, search = some s → s ≠ "" →
        (buildQuery filter search).or
            = some [.title ⟨s, "i"⟩, .tags ⟨s, "i"⟩, .author ⟨s, "i"⟩]
        ∧ ((buildQuery filter search).holds env b = true
            ↔ b.state = some (buildQuery filter search).state
              ∧ ((∃ t, b.title = some t ∧ env.test ⟨s, "i"⟩ t = true)
                ∨ (∃ t ∈ b.tags.getD [], env.test ⟨s, "i"⟩ t = true)
                ∨ (∃ a, b.author = some a ∧ env.test ⟨s, "i"⟩ a = true))))
    ∧ (∀ (req1 req2 : Request) (store : Store), req1.query = req2.query →
        getBlogs env req1 store = getBlogs env req2 store)
    ∧ (filter = some "" → (buildQuery filter search).state = "published")
    ∧ (search = some "" → (buildQuery filter search).or = none) := by
  refine ⟨fun hf => ?_, fun f hf hne => ?_, fun hs => ?_, fun s hs hne => ?_,
    fun req1 req2 store h => getBlogs_congr env req1 req2 store h, fun hf => ?_, fun hs => ?_⟩
  · rw [buildQuery_state, hf]
    rfl
  · rw [buildQuery_state, hf]
    simp [truthy, hne]
  · have hor : (buildQuery filter search).or = none := by
      rw [buildQuery_or, hs]
      rfl
    refine ⟨hor, ?_⟩
    rw [holds_iff, hor]
    simp
  · have hor : (buildQuery filter search).or
        = some [.title ⟨s, "i"⟩, .tags ⟨s, "i"⟩, .author ⟨s, "i"⟩] := by
      rw [buildQuery_or, hs]
      simp [truthy, hne]
    refine ⟨hor, ?_⟩
    rw [holds_iff, hor]
    constructor
    · rintro ⟨hst, hcs⟩
      refine ⟨hst, ?_⟩
      obtain ⟨c, hc, hholds⟩ := hcs _ rfl
      simp only [List.mem_cons, List.mem_singleton, List.not_mem_nil, or_false] at hc
      rcases hc with rfl | rfl | rfl
      · left
        unfold Cond.holds at hholds
        cases ht : b.title with
        | none => simp [ht] at hholds
        | some t => exact ⟨t, rfl, by simpa [ht] using hholds⟩
      · right; left
        unfold Cond.holds at hholds
        simpa using hholds
      · right; right
        unfold Cond.holds at hholds
        cases ha : b.author with
        | none => simp [ha] at hholds
        | some a => exact ⟨a, rfl, by simpa [ha] using hholds⟩
    · rintro ⟨hst, hany⟩
      refine ⟨hst, fun cs hcs => ?_⟩
      simp only [Option.some.injEq] at hcs
      subst hcs
      rcases hany with ⟨t, ht, htest⟩ | ⟨t, ht, htest⟩ | ⟨a, ha, htest⟩
      · exact ⟨.title ⟨s, "i"⟩, by simp, by simp [Cond.holds, ht, htest]⟩
      · refine ⟨.tags ⟨s, "i"⟩, by simp, ?_⟩
        unfold Cond.holds
        simp only [List.any_eq_true]
        exact ⟨t, ht, htest⟩
      · exact ⟨.author ⟨s, "i"⟩, by simp, by simp [Cond.holds, ha, htest]⟩
  · rw [buildQuery_state, hf]
    rfl
  · rw [buildQuery_or, hs]
    rfl

/-- Witness for C8: the filter `draft` replaces the published condition. -/
theorem buildQuery_spec_witness : (buildQuery (some "draft") none).state = "draft" :=
  (buildQuery_spec sampleEnv (some "draft") none draftPost).2.1 "draft" rfl (by decide)

theorem find_ok (env : Env) (store : Store) (q : Query) (page limit : Nat)
    (sort : Option String) (hpage : 1 ≤ page) (hlimit : 1 ≤ limit)
    (hok : ∀ op, env.fault op = none) :
    env.find store q (limit * 1) (((page : Int) - 1) * (limit : Int)) sort
      = .ok (((env.sort sort (store.filter (q.holds env))).drop ((page - 1) * limit)).take
          limit) := by
  have hskip : ((page : Int) - 1) * (limit : Int) = (((page - 1) * limit : Nat) : Int) := by
    push_cast [Nat.cast_sub hpage]
    ring
  have hnonneg : ¬ ((((page - 1) * limit : Nat) : Int) < 0) := by omega
  have hlim : ¬ (limit = 0) := by omega
  unfold Env.find
  rw [hok, hskip]
  simp only [hnonneg, if_false, Int.toNat_ofNat, Nat.mul_one, limitDocs, hlim]

theorem countDocuments_ok (env : Env) (store : Store) (q : Query)
    (hok : ∀ op, env.fault op = none) :
    env.countDocuments store q = .ok (store.filter (q.holds env)).length := by
  unfold Env.countDocuments
  rw [hok]

/-- C9: when the store calls do not throw, for every page ≥ 1 and limit ≥ 1
(1 and 20 when absent from the query) the listing handler skips
`(page - 1) * limit` of the sorted matching posts, takes at most `limit`, and
responds 200 with `totalPages = ceil (count / limit)` and `currentPage = page`,
where `count` is the number of posts that match the same filter object; with no
query parameter at all this is skip 0, take 20, current page 1 and
`ceil (count / 20)` pages over the published posts. -/
theorem getBlogs_spec (env : Env) (req : Request) (store : Store)
    (hok : ∀ op, env.fault op = none) :
    (∀ page limit : Nat, 1 ≤ page → 1 ≤ limit →
      req.query.page.getD 1 = page → req.query.limit.getD 20 = limit →
        getBlogs env req store
            = (⟨200, .listing
                  ((((env.sort req.query.sort
                      (store.filter ((buildQuery req.query.filter req.query.search).holds env))).drop
                        ((page - 1) * limit)).take limit).map (populate env))
                  (some (Nat.ceil
                    (((store.filter
                        ((buildQuery req.query.filter req.query.search).holds env)).length : ℚ)
                      / (limit : ℚ))))
                  page⟩, store)
          ∧ (((env.sort req.query.sort
                (store.filter ((buildQuery req.query.filter req.query.search).holds env))).drop
                  ((page - 1) * limit)).take limit).length ≤ limit
          ∧ Nat.ceil
              (((store.filter
                  ((buildQuery req.query.filter req.query.search).holds env)).length : ℚ)
                / (limit : ℚ))
              = ((store.filter
                  ((buildQuery req.query.filter req.query.search).holds env)).length
                  + (limit - 1)) / limit)
    ∧ (req.query = noParams →
        getBlogs env req store
          = (⟨200, .listing
                (((env.sort none
                    (store.filter (fun b => b.state == some "published"))).take 20).map
                      (populate env))
                (some (Nat.ceil
                  (((store.filter (fun b => b.state == some "published")).length : ℚ)
                    / (20 : ℚ))))
                1⟩, store)) := by
  have main : ∀ page limit : Nat, 1 ≤ page → 1 ≤ limit →
      req.query.page.getD 1 = page → req.query.limit.getD 20 = limit →
        getBlogs env req store
            = (⟨200, .listing
                  ((((env.sort req.query.sort
                      (store.filter ((buildQuery req.query.filter req.query.search).holds env))).drop
                        ((page - 1) * limit)).take limit).map (populate env))
                  (some (Nat.ceil
                    (((store.filter
                        ((buildQuery req.query.filter req.query.search).holds env)).length : ℚ)
                      / (limit : ℚ))))
                  page⟩, store) := by
    intro page limit hpage hlimit hp hl
    have hlim : ¬ (limit = 0) := by omega
    unfold getBlogs
    simp only [hp, hl]
    rw [find_ok env store _ page limit _ hpage hlimit hok, countDocuments_ok env store _ hok]
    simp only [totalPages, hlim, if_false]
  refine ⟨fun page limit hpage hlimit hp hl => ⟨main page limit hpage hlimit hp hl, ?_, ?_⟩,
    fun hq => ?_⟩
  · exact List.length_take_le _ _
  · exact ceil_div_eq _ limit hlimit
  · have h := main 1 20 (by decide) (by decide) (by rw [hq]; rfl) (by rw [hq]; rfl)
    rw [h, hq]
    have hholds : (buildQuery noParams.filter noParams.search).holds env
        = fun b => b.state == some "published" := by
      funext b
      simp [buildQuery, noParams, Query.holds]
    rw [hholds]
    simp [noParams]

/-- Witness for C9: the sample store, listed without query parameters. -/
theorem getBlogs_spec_witness :
    getBlogs sampleEnv (requestOf none "" noFields) sampleStore
      = (⟨200, .listing
            (((sampleEnv.sort none
                (sampleStore.filter (fun b => b.state == some "published"))).take 20).map
                  (populate sampleEnv))
            (some (Nat.ceil
              (((sampleStore.filter (fun b => b.state == some "published")).length : ℚ)
                / (20 : ℚ))))
            1⟩, sampleStore) :=
  (getBlogs_spec sampleEnv (requestOf none "" noFields) sampleStore (fun _ => rfl)).2 rfl

/-! ## Authentication: claim C10 -/

theorem token_eq_empty (l : List Char) : ((⟨l⟩ : String) = "") ↔ l = [] := by
  constructor
  · intro h
    have := congrArg String.data h
    simpa using this
  · intro h
    subst h
    rfl

theorem replaceFirst_prefix (pat rep rest : List Char) :
    replaceFirst pat rep (pat ++ rest) = rep ++ rest := by
  cases hp : pat ++ rest with
  | nil =>
    have h1 : pat = [] := (List.append_eq_nil.mp hp).1
    have h2 : rest = [] := (List.append_eq_nil.mp hp).2
    subst h1 h2
    simp [replaceFirst]
  | cons c cs =>
    unfold replaceFirst
    have hpre : pat.isPrefixOf (c :: cs) = true := by
      rw [← hp]
      simp
    rw [if_pos hpre, ← hp]
    simp

/-- C10: for a request that carries an `Authorization` header, `authenticate`
responds 401 `No token provided` when the header with its first `Bearer `
removed is empty, and 401 `Invalid token` when the verification of that token
fails; in both cases the outcome of the route is that response and the store as
it was, whatever the downstream handler is; when the verification succeeds the
middleware sends nothing, sets `userId` to the `id` of the verified payload and
the outcome of the route is that of the downstream handler on this request. -/
theorem authenticate_spec (env : Env) (req : Request) (header : String)
    (hh : req.authorization = some header) :
    (replaceFirst "Bearer ".data [] header.data = [] →
      authenticate env req = .responded ⟨401, .message "No token provided"⟩
      ∧ ∀ (next : Request → Store → Response × Store) (store : Store),
          withAuth env next req store = .sent ⟨401, .message "No token provided"⟩ store)
    ∧ (replaceFirst "Bearer ".data [] header.data ≠ [] →
        env.verify ⟨replaceFirst "Bearer ".data [] header.data⟩ = none →
      authenticate env req = .responded ⟨401, .message "Invalid token"⟩
      ∧ ∀ (next : Request → Store → Response × Store) (store : Store),
          withAuth env next req store = .sent ⟨401, .message "Invalid token"⟩ store)
    ∧ (∀ payload : Payload, replaceFirst "Bearer ".data [] header.data ≠ [] →
        env.verify ⟨replaceFirst "Bearer ".data [] header.data⟩ = some payload →
      authenticate env req = .next { req with userId := payload.id }
      ∧ ∀ (next : Request → Store → Response × Store) (store : Store),
          withAuth env next req store
            = .sent (next { req with userId := payload.id } store).1
                (next { req with userId := payload.id } store).2) := by
  refine ⟨fun hempty => ?_, fun hne hver => ?_, fun payload hne hver => ?_⟩
  · have h : authenticate env req = .responded ⟨401, .message "No token provided"⟩ := by
      unfold authenticate
      rw [hh]
      simp only [hempty]
      rfl
    exact ⟨h, fun next store => by unfold withAuth; rw [h]⟩
  · have h : authenticate env req = .responded ⟨401, .message "Invalid token"⟩ := by
      unfold authenticate
      rw [hh]
      simp only [token_eq_empty, hne, if_false, hver]
    exact ⟨h, fun next store => by unfold withAuth; rw [h]⟩
  · have h : authenticate env req = .next { req with userId := payload.id } := by
      unfold authenticate
      rw [hh]
      simp only [token_eq_empty, hne, if_false, hver]
    exact ⟨h, fun next store => by unfold withAuth; rw [h]⟩

/-- Witness for C10: the header `Bearer t1` verifies for user `u1`. -/
theorem authenticate_spec_witness :
    authenticate sampleEnv (requestWithHeader "Bearer t1")
      = .next { requestWithHeader "Bearer t1" with userId := some "u1" } :=
  ((authenticate_spec sampleEnv (requestWithHeader "Bearer t1") "Bearer t1" rfl).2.2
    ⟨some "u1"⟩ (by decide) rfl).1

end BloggingApi
